import Mathlib

/-!
# Verification of the serial_tui display/dispatch core

Shallow embedding of the parts of `serial_tui` referred to by the claims:

* `src/ui/widgets/display.rs` — the `Display` widget (ring buffer of lines,
  cursor navigation, visual selection, search, yank, key handling);
* `src/serial/hub.rs` / `src/serial/connection.rs` — `SerialHub::send`,
  `Connection::open` (writer queue) and `Connection::spawn_reader`;
* `src/serial/config.rs` — `LineEnding::as_bytes`;
* `src/types/color.rs` — `Color::from_str`.

Modelling conventions:

* Rust `usize` becomes `Nat`; `saturating_sub` is `Nat` subtraction.
* A `ratatui` `Line<'static>` is modelled by its flattened text content
  (`List Char`): every claim about display lines concerns only the plain
  text obtained by concatenating the spans, which is how the source itself
  extracts it (`line.spans.iter().map(|s| s.content.as_ref()).collect()`).
* Byte buffers are `List Nat` (byte values; only 10 = LF and 13 = CR are
  distinguished by the code under study).
* The clipboard and the serial device are external collaborators; their
  outcome is passed in as an explicit `Except`/`Bool` argument.
-/

/-- Text of one display line (a Rust `Line<'static>` flattened to its
characters). -/
abbrev Str := List Char

/-- Rust `str::to_lowercase` restricted to the ASCII mapping, which is all the
claims exercise (Lean's `Char.toLower` lowercases `A`–`Z`). -/
def toLowerS (s : Str) : Str := s.map Char.toLower

/-- State of the `Display` widget (`src/ui/widgets/display.rs`, struct
`Display`).  The `clipboard: Option<arboard::Clipboard>` cache is modelled
by a `Bool` recording whether it is populated. -/
structure Display where
  lines : List Str
  cursor : Nat
  view_start : Nat
  pending_g : Bool
  selection_start : Option Nat
  search_mode : Bool
  search_query : Str
  search_matches : List Nat
  search_match_idx : Nat
  clipboard : Bool
  deriving Repr, DecidableEq

/-- Rust `Display::MAX_LINES`. -/
def Display.MAX_LINES : Nat := 10000

/-- Rust `Display::new`. -/
def Display.new : Display :=
  { lines := []
    cursor := 0
    view_start := 0
    pending_g := false
    selection_start := none
    search_mode := false
    search_query := []
    search_matches := []
    search_match_idx := 0
    clipboard := false }

/-- Rust `Display::push_line`: pop the oldest line when at capacity (adjusting
only `view_start`), append, and move the cursor to the new last index. -/
def Display.push_line (d : Display) (line : Str) : Display :=
  let d :=
    if d.lines.length ≥ Display.MAX_LINES then
      { d with lines := d.lines.tail, view_start := d.view_start - 1 }
    else d
  let d := { d with lines := d.lines ++ [line] }
  { d with cursor := d.lines.length - 1 }

/-- Rust `Display::adjust_scroll`.  `margin = (height as f32 * 0.25) as usize`
equals `height / 4` for every height below `2^24` (the `f32` product is
exact there); terminal heights are `u16`, far below that bound.  Note that
`cursor_in_view` is computed once, before either branch runs, exactly as
in the source. -/
def Display.adjust_scroll (d : Display) (height : Nat) : Display :=
  if height = 0 then d
  else
    let margin := height / 4
    let cursor_in_view := d.cursor - d.view_start
    let d :=
      if cursor_in_view < margin then
        { d with view_start := d.cursor - margin }
      else d
    let d :=
      if cursor_in_view ≥ height - margin then
        { d with view_start := d.cursor - (height - margin - 1) }
      else d
    let max_start := d.lines.length - height
    { d with view_start := min d.view_start max_start }

/-- Rust `Display::move_up`. -/
def Display.move_up (d : Display) (height : Nat) : Display :=
  if d.cursor > 0 then
    Display.adjust_scroll { d with cursor := d.cursor - 1 } height
  else d

/-- Rust `Display::move_down`. -/
def Display.move_down (d : Display) (height : Nat) : Display :=
  if d.cursor < d.lines.length - 1 then
    Display.adjust_scroll { d with cursor := d.cursor + 1 } height
  else d

/-- Rust `Display::half_page_up`. -/
def Display.half_page_up (d : Display) (height : Nat) : Display :=
  Display.adjust_scroll { d with cursor := d.cursor - height / 2 } height

/-- Rust `Display::half_page_down`. -/
def Display.half_page_down (d : Display) (height : Nat) : Display :=
  Display.adjust_scroll
    { d with cursor := min (d.cursor + height / 2) (d.lines.length - 1) } height

/-- Rust `Display::go_to_top`. -/
def Display.go_to_top (d : Display) (height : Nat) : Display :=
  Display.adjust_scroll { d with cursor := 0 } height

/-- Rust `Display::go_to_bottom`. -/
def Display.go_to_bottom (d : Display) (height : Nat) : Display :=
  Display.adjust_scroll { d with cursor := d.lines.length - 1 } height

/-- Rust `Display::toggle_visual`. -/
def Display.toggle_visual (d : Display) : Display :=
  if d.selection_start.isSome then { d with selection_start := none }
  else { d with selection_start := some d.cursor }

/-- Rust `Display::in_visual_mode`. -/
def Display.in_visual_mode (d : Display) : Bool := d.selection_start.isSome

/-- Rust `Display::selection_range`. -/
def Display.selection_range (d : Display) : Option (Nat × Nat) :=
  d.selection_start.map fun start =>
    (min start d.cursor, max start d.cursor)

/-- Rust `Display::yank`.  The clipboard is external; the two fallible
calls are passed in as arguments: `clipNew` is the outcome of
`arboard::Clipboard::new()` (consulted only when no clipboard handle is
cached yet) and `clipSet` the outcome of `set_text`.  The source has a
mutation between the two `?` sites: a successful `Clipboard::new()`
assigns `self.clipboard = Some(..)` before `set_text?` can fail, so a
failed yank may still populate the clipboard cache.  `selection_start`
is cleared only after both calls succeed. -/
def Display.yank (d : Display) (clipNew clipSet : Except String Unit) :
    Display × Except String Nat :=
  let num_lines := match d.selection_range with
    | some (s, e) => e - s + 1
    | none => 1
  match (if d.clipboard then Except.ok d
         else clipNew.map fun _ => { d with clipboard := true }) with
  | .error e => (d, .error e)
  | .ok d1 =>
    match clipSet with
    | .error e => (d1, .error e)
    | .ok _ => ({ d1 with selection_start := none }, .ok num_lines)

/-- Rust `Display::start_search`. -/
def Display.start_search (d : Display) : Display :=
  { d with search_mode := true, search_query := [], search_matches := [],
           search_match_idx := 0 }

/-- Rust `Display::cancel_search`. -/
def Display.cancel_search (d : Display) : Display :=
  { d with search_mode := false, search_query := [], search_matches := [] }

/-- Rust `Display::search_push`. -/
def Display.search_push (d : Display) (c : Char) : Display :=
  { d with search_query := d.search_query ++ [c] }

/-- Rust `Display::search_pop`. -/
def Display.search_pop (d : Display) : Display :=
  { d with search_query := d.search_query.dropLast }

/-- The `for (idx, line) in self.lines.iter().enumerate()` loop body of
`Display::execute_search`: collect the indices (counting from `i`) of the
lines whose lowercased text contains `ql`. -/
def searchLoop (ql : Str) : Nat → List Str → List Nat
  | _, [] => []
  | i, l :: ls =>
    if ql <:+: toLowerS l then i :: searchLoop ql (i + 1) ls
    else searchLoop ql (i + 1) ls

/-- Rust `Display::execute_search`. -/
def Display.execute_search (d : Display) (height : Nat) : Display :=
  let d := { d with search_matches := [], search_match_idx := 0 }
  if d.search_query = [] then d
  else
    let query_lower := toLowerS d.search_query
    let d := { d with search_matches := searchLoop query_lower 0 d.lines }
    match d.search_matches with
    | [] => d
    | m :: _ => Display.adjust_scroll { d with cursor := m } height

/-- Rust `Display::finish_search`. -/
def Display.finish_search (d : Display) (height : Nat) : Display :=
  Display.execute_search { d with search_mode := false } height

/-- Rust `Display::next_match`.  The Rust index `self.search_matches[idx]` is in
bounds because `idx` was just reduced modulo the length; `getD` agrees with
it there. -/
def Display.next_match (d : Display) (height : Nat) : Display :=
  if d.search_matches = [] then d
  else
    let idx := (d.search_match_idx + 1) % d.search_matches.length
    Display.adjust_scroll
      { d with search_match_idx := idx, cursor := d.search_matches.getD idx 0 }
      height

/-- Rust `Display::prev_match`. -/
def Display.prev_match (d : Display) (height : Nat) : Display :=
  if d.search_matches = [] then d
  else
    let idx :=
      if d.search_match_idx = 0 then d.search_matches.length - 1
      else d.search_match_idx - 1
    Display.adjust_scroll
      { d with search_match_idx := idx, cursor := d.search_matches.getD idx 0 }
      height

/-! ## Key handling (`Display::handle_key`) -/

/-- Rust `crossterm::event::KeyCode`, restricted to the variants the widget
inspects. -/
inductive KeyCode where
  | char (c : Char)
  | esc
  | enter
  | backspace
  | up
  | down
  | otherKey
  deriving Repr, DecidableEq

/-- Rust `crossterm::event::KeyModifiers`, restricted to the values the match
arms distinguish (the source matches the whole bitflag value). -/
inductive KeyMods where
  | plain
  | control
  | shift
  | otherMods
  deriving Repr, DecidableEq

/-- Rust `crossterm::event::KeyEvent` (the fields the widget reads). -/
structure KeyEvent where
  mods : KeyMods
  code : KeyCode
  deriving Repr, DecidableEq

/-- Rust `DisplayAction`. -/
inductive DisplayAction where
  | focusInput
  | notify (msg : String)
  deriving Repr, DecidableEq

/-- The `y` arm of the key `match`: run `yank` and turn its outcome into
the user notification. -/
def Display.yank_action (d : Display) (clipNew clipSet : Except String Unit) :
    Display × Option DisplayAction :=
  match d.yank clipNew clipSet with
  | (d', .ok n) =>
    (d', some (.notify ("Yanked " ++ toString n ++ " line(s)")))
  | (d', .error e) =>
    (d', some (.notify ("Yank failed: " ++ e)))

/-- The `match (key.modifiers, key.code)` block of `Display::handle_key`
(everything after the search-mode and pending-`g` handling), rendered as
the equivalent ordered condition chain, arms in source order.  The `Esc`
arm carries the `if self.in_visual_mode()` guard; when the guard fails no
later arm matches `Esc`, so the wildcard result `(d, none)` applies. -/
def Display.handle_key_tail (d : Display) (key : KeyEvent) (height : Nat)
    (clipNew clipSet : Except String Unit) : Display × Option DisplayAction :=
  if key.mods = .control ∧ key.code = .char 'u' then (d.half_page_up height, none)
  else if key.mods = .control ∧ key.code = .char 'd' then
    (d.half_page_down height, none)
  else if key.code = .char 'g' then ({ d with pending_g := true }, none)
  else if key.mods = .shift ∧ key.code = .char 'G' then
    (d.go_to_bottom height, none)
  else if key.code = .char '/' then (d.start_search, none)
  else if key.code = .char 'n' then (d.next_match height, none)
  else if key.mods = .shift ∧ key.code = .char 'N' then (d.prev_match height, none)
  else if key.code = .char 'v' ∨ (key.mods = .shift ∧ key.code = .char 'V') then
    (d.toggle_visual, none)
  else if key.code = .char 'y' then d.yank_action clipNew clipSet
  else if key.code = .esc ∧ d.in_visual_mode then
    ({ d with selection_start := none }, none)
  else if key.code = .char 'k' ∨ key.code = .up then (d.move_up height, none)
  else if key.code = .char 'j' ∨ key.code = .down then (d.move_down height, none)
  else if key.code = .enter then (d, some .focusInput)
  else (d, none)

/-- Rust `Display::handle_key`. -/
def Display.handle_key (d : Display) (key : KeyEvent) (height : Nat)
    (clipNew clipSet : Except String Unit) : Display × Option DisplayAction :=
  if d.search_mode then
    match key.code with
    | .esc => (d.cancel_search, none)
    | .enter => (d.finish_search height, none)
    | .backspace => (d.search_pop, none)
    | .char c => (d.search_push c, none)
    | _ => (d, none)
  else if d.pending_g then
    let d' := { d with pending_g := false }
    if key.code = .char 'g' then (d'.go_to_top height, none)
    else d'.handle_key_tail key height clipNew clipSet
  else d.handle_key_tail key height clipNew clipSet

/-! ## The public mutating operations of `Display`, as one inductive -/

/-- One public mutating call on the `Display` widget.  `render` contributes
its `adjust_scroll(content_height)` call; the drawing itself reads the
state only. -/
inductive DOp where
  | push (l : Str)
  | moveUp (h : Nat)
  | moveDown (h : Nat)
  | halfUp (h : Nat)
  | halfDown (h : Nat)
  | goTop (h : Nat)
  | goBottom (h : Nat)
  | toggleVisual
  | yank (clipNew clipSet : Except String Unit)
  | startSearch
  | finishSearch (h : Nat)
  | cancelSearch
  | searchPush (c : Char)
  | searchPop
  | nextMatch (h : Nat)
  | prevMatch (h : Nat)
  | render (h : Nat)
  | key (k : KeyEvent) (h : Nat) (clipNew clipSet : Except String Unit)

/-- Effect of an operation on the widget state. -/
def DOp.apply : DOp → Display → Display
  | .push l, d => d.push_line l
  | .moveUp h, d => d.move_up h
  | .moveDown h, d => d.move_down h
  | .halfUp h, d => d.half_page_up h
  | .halfDown h, d => d.half_page_down h
  | .goTop h, d => d.go_to_top h
  | .goBottom h, d => d.go_to_bottom h
  | .toggleVisual, d => d.toggle_visual
  | .yank cn cs, d => (d.yank cn cs).1
  | .startSearch, d => d.start_search
  | .finishSearch h, d => d.finish_search h
  | .cancelSearch, d => d.cancel_search
  | .searchPush c, d => d.search_push c
  | .searchPop, d => d.search_pop
  | .nextMatch h, d => d.next_match h
  | .prevMatch h, d => d.prev_match h
  | .render h, d => d.adjust_scroll h
  | .key k h cn cs, d => (d.handle_key k h cn cs).1

/-- States of the widget reachable from `Display::new` through its public
interface. -/
inductive DReach : Display → Prop where
  | base : DReach Display.new
  | step (op : DOp) {d : Display} : DReach d → DReach (op.apply d)

/-! ## Serial hub (`src/serial/hub.rs`, `src/serial/connection.rs`,
`src/serial/config.rs`) -/

/-- Rust `LineEnding`. -/
inductive LineEnding where
  | LF
  | CR
  | CRLF
  deriving Repr, DecidableEq

/-- Rust `LineEnding::as_bytes` (`\n` = 10, `\r` = 13). -/
def LineEnding.as_bytes : LineEnding → List Nat
  | .LF => [10]
  | .CR => [13]
  | .CRLF => [13, 10]

/-- Rust `SerialError` (`src/serial/error.rs`): the *complete* set of variants.
The payloads carried by `Open`/`Read`/`Write` are opaque OS errors,
irrelevant to the claims. -/
inductive SerialError where
  | PortNotFound (name : String)
  | Open
  | Read
  | Write
  | Send
  deriving Repr, DecidableEq

/-- One entry of `SerialHub.ports`.  `queue` is the content of the writer
`mpsc::channel()` created by `Connection::open` — a plain unbounded FIFO.
`connected` records whether the writer thread still holds the receiving
endpoint (`mpsc::Sender::send` fails exactly when it does not). -/
structure ManagedPort where
  queue : List (List Nat)
  line_ending : LineEnding
  connected : Bool
  deriving Repr, DecidableEq

/-- Rust `SerialHub`: the `HashMap<String, ManagedPort>` as a lookup function. -/
structure SerialHub where
  ports : String → Option ManagedPort

/-- Append one buffer to the writer queue of port `name`. -/
def SerialHub.enqueue (hub : SerialHub) (name : String) (buf : List Nat) :
    SerialHub :=
  { ports := fun n =>
      if n = name then
        (hub.ports n).map fun p => { p with queue := p.queue ++ [buf] }
      else hub.ports n }

/-- Rust `SerialHub::send`.  The Rust loop takes `&self`; the queues live in the
channels, so a failed iteration leaves the buffers already enqueued for
earlier targets in place.  The model therefore returns the state reached
together with the first failure, if any.  Each iteration clones `data`
afresh and appends the target's line ending. -/
def SerialHub.send (payload : List Nat) :
    SerialHub → List String → SerialHub × Option SerialError
  | hub, [] => (hub, none)
  | hub, name :: rest =>
    match hub.ports name with
    | none => (hub, some (.PortNotFound name))
    | some port =>
      if port.connected then
        SerialHub.send payload
          (hub.enqueue name (payload ++ port.line_ending.as_bytes)) rest
      else (hub, some .Send)

/-- Rust `true` iff `name` is registered and its writer thread is alive. -/
def SerialHub.isLive (hub : SerialHub) (name : String) : Bool :=
  match hub.ports name with
  | some p => p.connected
  | none => false

/-- Length of a port's writer queue (0 for an unknown port). -/
def SerialHub.queueLen (hub : SerialHub) (name : String) : Nat :=
  match hub.ports name with
  | some p => p.queue.length
  | none => 0

/-! ## Reader thread framing (`Connection::spawn_reader`) -/

/-- Body of the `for &byte in &read_buf[..n]` loop of
`Connection::spawn_reader`: state is (current `line_buf`, `Data` events
broadcast so far, oldest first). -/
def readFold (st : List Nat × List (List Nat)) (b : Nat) :
    List Nat × List (List Nat) :=
  let (buf, evs) := st
  if b = 10 ∨ b = 13 then
    if buf = [] then (buf, evs) else ([], evs ++ [buf])
  else (buf ++ [b], evs)

/-- Processing of one successful `read` of the byte chunk `chunk` while the
reader holds `line_buf = buf`: returns the new `line_buf` and the payloads
of the `Data` events emitted, in order. -/
def processChunk (buf : List Nat) (chunk : List Nat) :
    List Nat × List (List Nat) :=
  chunk.foldl readFold (buf, [])

/-- Rust `true` for bytes that are neither LF nor CR. -/
def notNewline (b : Nat) : Bool := ¬(b = 10 ∨ b = 13)

/-! ## Color parsing (`src/types/color.rs`, `Color::from_str`)

The Rust function slices the *byte* representation of the string
(`&s[1..3]` etc.); slicing off a UTF-8 character boundary panics.  The
model therefore works on the character list, tracks UTF-8 byte widths
explicitly, and returns a three-valued outcome. -/

/-- Number of UTF-8 bytes of a character (Rust `char::len_utf8`). -/
def charBytes (c : Char) : Nat :=
  if c.val < 0x80 then 1
  else if c.val < 0x800 then 2
  else if c.val < 0x10000 then 3
  else 4

/-- UTF-8 byte length of a string (Rust `str::len`). -/
def utf8Len (cs : List Char) : Nat := (cs.map charBytes).sum

/-- Drop the first `n` bytes of a string: `some` suffix when byte index `n`
is a character boundary within the string, `none` (Rust: panic) otherwise. -/
def dropBytes : List Char → Nat → Option (List Char)
  | cs, 0 => some cs
  | [], _ + 1 => none
  | c :: rest, n + 1 =>
    if charBytes c ≤ n + 1 then dropBytes rest (n + 1 - charBytes c) else none

/-- Take the first `n` bytes of a string, with the same boundary policy. -/
def takeBytes : List Char → Nat → Option (List Char)
  | _, 0 => some []
  | [], _ + 1 => none
  | c :: rest, n + 1 =>
    if charBytes c ≤ n + 1 then (takeBytes rest (n + 1 - charBytes c)).map (c :: ·)
    else none

/-- Rust `&s[a..b]`: `none` models the slicing panic. -/
def sliceBytes (cs : List Char) (a b : Nat) : Option (List Char) :=
  (dropBytes cs a).bind fun rest => takeBytes rest (b - a)

/-- Rust `char::to_digit(16)`. -/
def hexVal (c : Char) : Option Nat :=
  if '0' ≤ c ∧ c ≤ '9' then some (c.toNat - '0'.toNat)
  else if 'a' ≤ c ∧ c ≤ 'f' then some (c.toNat - 'a'.toNat + 10)
  else if 'A' ≤ c ∧ c ≤ 'F' then some (c.toNat - 'A'.toNat + 10)
  else none

/-- Digit loop of `u8::from_str_radix`: radix-16 accumulation with the
`u8` overflow check. -/
def hexDigits : Nat → List Char → Option Nat
  | acc, [] => some acc
  | acc, c :: rest =>
    match hexVal c with
    | none => none
    | some d => if acc * 16 + d > 255 then none else hexDigits (acc * 16 + d) rest

/-- Rust `u8::from_str_radix(s, 16)`: an empty string is an error; one leading
`+` is accepted (and must be followed by at least one digit); a leading
`-` on an unsigned type is an error; otherwise every character must be a
hex digit. -/
def parseHexU8 (cs : List Char) : Option Nat :=
  match cs with
  | [] => none
  | '+' :: rest => if rest = [] then none else hexDigits 0 rest
  | '-' :: _ => none
  | _ => hexDigits 0 cs

/-- The `ratatui` colors `Color::from_str` can produce. -/
inductive ColorV where
  | reset
  | black
  | red
  | green
  | yellow
  | blue
  | magenta
  | cyan
  | gray
  | white
  | rgb (r g b : Nat)
  deriving Repr, DecidableEq

/-- Outcome of `Color::from_str`: a value, an `Err(AppError)`, or a panic
(byte slicing off a character boundary). -/
inductive ParseOutcome where
  | ok (c : ColorV)
  | err
  | panics
  deriving Repr, DecidableEq

/-- The named-color `match` of `Color::from_str` (on the lowercased
string). -/
def namedColor (l : List Char) : ParseOutcome :=
  if l = ['r', 'e', 's', 'e', 't'] then .ok .reset
  else if l = ['b', 'l', 'a', 'c', 'k'] then .ok .black
  else if l = ['r', 'e', 'd'] then .ok .red
  else if l = ['g', 'r', 'e', 'e', 'n'] then .ok .green
  else if l = ['y', 'e', 'l', 'l', 'o', 'w'] then .ok .yellow
  else if l = ['b', 'l', 'u', 'e'] then .ok .blue
  else if l = ['m', 'a', 'g', 'e', 'n', 't', 'a'] then .ok .magenta
  else if l = ['c', 'y', 'a', 'n'] then .ok .cyan
  else if l = ['g', 'r', 'a', 'y'] then .ok .gray
  else if l = ['g', 'r', 'e', 'y'] then .ok .gray
  else if l = ['w', 'h', 'i', 't', 'e'] then .ok .white
  else .err

/-- The hex branch of `Color::from_str`.  Slices and hex parses are
sequenced exactly as in the source: `&s[1..3]` is sliced and parsed (with
`?`) before `&s[3..5]` is touched, and so on. -/
def hexColor (cs : List Char) : ParseOutcome :=
  if utf8Len cs ≠ 7 then .err
  else
    match sliceBytes cs 1 3 with
    | none => .panics
    | some rs =>
      match parseHexU8 rs with
      | none => .err
      | some r =>
        match sliceBytes cs 3 5 with
        | none => .panics
        | some gs =>
          match parseHexU8 gs with
          | none => .err
          | some g =>
            match sliceBytes cs 5 7 with
            | none => .panics
            | some bs =>
              match parseHexU8 bs with
              | none => .err
              | some b => .ok (.rgb r g b)

/-- Rust `Color::from_str`: `s.starts_with('#')` dispatches to the hex branch,
anything else to the lowercased name table. -/
def colorFromStr (cs : List Char) : ParseOutcome :=
  if cs.head? = some '#' then hexColor cs
  else namedColor (cs.map Char.toLower)

/-! ## Auxiliary definitions: invariants, operation inductives and
concrete states used by the theorems -/

/-- The three search-related fields a title render reads. -/
def sfields (d : Display) : Bool × List Nat × Nat :=
  (d.search_mode, d.search_matches, d.search_match_idx)
/-- Whenever there are search matches, the current match index is in
bounds. -/
def Inv10 (d : Display) : Prop :=
  d.search_matches ≠ [] → d.search_match_idx < d.search_matches.length

/-- In any state with `search_mode` set, the match list is empty
(`start_search` cleared it and search-mode keys only edit the query). -/
def SMInv (d : Display) : Prop :=
  d.search_mode = true → d.search_matches = []
/-- The eight cursor operations of §4.6, each parameterized by the visible
height. -/
inductive CursorOp where
  | moveUp
  | moveDown
  | halfUp
  | halfDown
  | goTop
  | goBottom
  | nextMatch
  | prevMatch

def CursorOp.apply : CursorOp → Display → Nat → Display
  | .moveUp, d, h => d.move_up h
  | .moveDown, d, h => d.move_down h
  | .halfUp, d, h => d.half_page_up h
  | .halfDown, d, h => d.half_page_down h
  | .goTop, d, h => d.go_to_top h
  | .goBottom, d, h => d.go_to_bottom h
  | .nextMatch, d, h => d.next_match h
  | .prevMatch, d, h => d.prev_match h

/-- The §3 display invariant at a given height, together with the match
indices staying inside the buffer (which `execute_search` establishes and
`push_line` preserves because the buffer never shrinks). -/
def DInv (d : Display) (height : Nat) : Prop :=
  d.view_start ≤ d.cursor ∧ d.cursor < d.lines.length ∧
    d.cursor - d.view_start < height ∧
    (∀ i ∈ d.search_matches, i < d.lines.length) ∧
    (d.search_matches ≠ [] → d.search_match_idx < d.search_matches.length)

instance (d : Display) (h : Nat) : Decidable (DInv d h) := by
  unfold DInv
  infer_instance
/-- The closed list of name spellings `Color::from_str` accepts. -/
def colorNames : List (List Char) :=
  [['r', 'e', 's', 'e', 't'], ['b', 'l', 'a', 'c', 'k'], ['r', 'e', 'd'],
   ['g', 'r', 'e', 'e', 'n'], ['y', 'e', 'l', 'l', 'o', 'w'],
   ['b', 'l', 'u', 'e'], ['m', 'a', 'g', 'e', 'n', 't', 'a'],
   ['c', 'y', 'a', 'n'], ['g', 'r', 'a', 'y'], ['g', 'r', 'e', 'y'],
   ['w', 'h', 'i', 't', 'e']]
/-- Shift of the match indices that claim C1 predicts for an eviction
(from the spec's words): every index drops by one and indices that would
become negative are removed. -/
def specShiftMatches (ms : List Nat) : List Nat :=
  ms.filterMap fun i => if i = 0 then none else some (i - 1)

/-- Shift of the selection anchor that claim C1 predicts for an eviction
(from the spec's words): drop by one, saturating at 0. -/
def specShiftAnchor (a : Option Nat) : Option Nat :=
  a.map fun i => i - 1

/-- A display at capacity holding a selection anchor and search matches. -/
def dC1 : Display :=
  { lines := List.replicate 10000 []
    cursor := 9999
    view_start := 5
    pending_g := false
    selection_start := some 5
    search_mode := false
    search_query := []
    search_matches := [0, 3]
    search_match_idx := 0
    clipboard := false }
/-- A well-formed display: 10 lines, cursor on line 8, viewport at 8. -/
def s2 : Display :=
  { lines := List.replicate 10 ['a']
    cursor := 8
    view_start := 8
    pending_g := false
    selection_start := none
    search_mode := false
    search_query := []
    search_matches := []
    search_match_idx := 0
    clipboard := false }
/-- A hub with one port `B` whose writer queue already holds 32 buffers. -/
def hub32 : SerialHub :=
  { ports := fun n =>
      if n = "B" then
        some { queue := List.replicate 32 [0], line_ending := .LF,
               connected := true }
      else none }
/-- A hub with ports `A` (LF line ending) and `B` (CRLF, one pending
buffer). -/
def hubW : SerialHub :=
  { ports := fun n =>
      if n = "A" then
        some { queue := [], line_ending := .LF, connected := true }
      else if n = "B" then
        some { queue := [[1]], line_ending := .CRLF, connected := true }
      else none }
/-- A display with one line `a` and an empty search query. -/
def s6 : Display :=
  { lines := [['a']]
    cursor := 0
    view_start := 0
    pending_g := false
    selection_start := none
    search_mode := false
    search_query := []
    search_matches := []
    search_match_idx := 0
    clipboard := false }
/-- A display whose lines are `cat`, `dog`, `CATS` with pending query
`aT`. -/
def dW6 : Display :=
  { lines := [['c', 'a', 't'], ['d', 'o', 'g'], ['C', 'A', 'T', 'S']]
    cursor := 0
    view_start := 0
    pending_g := false
    selection_start := none
    search_mode := true
    search_query := ['a', 'T']
    search_matches := []
    search_match_idx := 0
    clipboard := false }
/-- Number of lines a yank reports: the inclusive selection size, or 1
when no selection is active. -/
def Display.num_yank_lines (d : Display) : Nat :=
  match d.selection_range with
  | some (s, e) => e - s + 1
  | none => 1

/-- A display in visual mode with anchor 2. -/
def d7 : Display :=
  { lines := [['a'], ['b'], ['c']]
    cursor := 0
    view_start := 0
    pending_g := false
    selection_start := some 2
    search_mode := false
    search_query := []
    search_matches := []
    search_match_idx := 0
    clipboard := false }
/-- A reachable search-mode state: one line pushed, then `/` pressed. -/
def dW8 : Display := DOp.startSearch.apply ((DOp.push ['a']).apply Display.new)

/-! ## Helper lemmas: field preservation -/

theorem adjust_scroll_cursor (d : Display) (h : Nat) :
    (d.adjust_scroll h).cursor = d.cursor := by
  simp only [Display.adjust_scroll]; split_ifs <;> rfl

theorem adjust_scroll_lines (d : Display) (h : Nat) :
    (d.adjust_scroll h).lines = d.lines := by
  simp only [Display.adjust_scroll]; split_ifs <;> rfl

theorem adjust_scroll_matches (d : Display) (h : Nat) :
    (d.adjust_scroll h).search_matches = d.search_matches := by
  simp only [Display.adjust_scroll]; split_ifs <;> rfl

theorem adjust_scroll_idx (d : Display) (h : Nat) :
    (d.adjust_scroll h).search_match_idx = d.search_match_idx := by
  simp only [Display.adjust_scroll]; split_ifs <;> rfl

theorem adjust_scroll_mode (d : Display) (h : Nat) :
    (d.adjust_scroll h).search_mode = d.search_mode := by
  simp only [Display.adjust_scroll]; split_ifs <;> rfl

theorem adjust_scroll_query (d : Display) (h : Nat) :
    (d.adjust_scroll h).search_query = d.search_query := by
  simp only [Display.adjust_scroll]; split_ifs <;> rfl

theorem adjust_scroll_selection (d : Display) (h : Nat) :
    (d.adjust_scroll h).selection_start = d.selection_start := by
  simp only [Display.adjust_scroll]; split_ifs <;> rfl

theorem adjust_scroll_pending (d : Display) (h : Nat) :
    (d.adjust_scroll h).pending_g = d.pending_g := by
  simp only [Display.adjust_scroll]; split_ifs <;> rfl

/-- Scroll correction: with a positive margin (`height ≥ 4`) and an
in-range cursor, `adjust_scroll` always lands the viewport at or before
the cursor and keeps the cursor strictly within the window. -/
theorem adjust_scroll_spec (d : Display) (h : Nat) (h4 : 4 ≤ h)
    (hc : d.cursor < d.lines.length) :
    (d.adjust_scroll h).view_start ≤ d.cursor ∧
      d.cursor - (d.adjust_scroll h).view_start < h := by
  have hm : 1 ≤ h / 4 := by omega
  simp only [Display.adjust_scroll]
  split_ifs <;> (try dsimp only) <;> omega


theorem sfields_adjust (d : Display) (h : Nat) :
    sfields (d.adjust_scroll h) = sfields d := by
  unfold sfields
  rw [adjust_scroll_matches, adjust_scroll_idx, adjust_scroll_mode]

theorem sfields_move_up (d : Display) (h : Nat) :
    sfields (d.move_up h) = sfields d := by
  unfold Display.move_up
  split_ifs <;> (try rw [sfields_adjust]) <;> rfl

theorem sfields_move_down (d : Display) (h : Nat) :
    sfields (d.move_down h) = sfields d := by
  unfold Display.move_down
  split_ifs <;> (try rw [sfields_adjust]) <;> rfl

theorem sfields_half_up (d : Display) (h : Nat) :
    sfields (d.half_page_up h) = sfields d := by
  unfold Display.half_page_up
  rw [sfields_adjust]
  rfl

theorem sfields_half_down (d : Display) (h : Nat) :
    sfields (d.half_page_down h) = sfields d := by
  unfold Display.half_page_down
  rw [sfields_adjust]
  rfl

theorem sfields_go_top (d : Display) (h : Nat) :
    sfields (d.go_to_top h) = sfields d := by
  unfold Display.go_to_top
  rw [sfields_adjust]
  rfl

theorem sfields_go_bottom (d : Display) (h : Nat) :
    sfields (d.go_to_bottom h) = sfields d := by
  unfold Display.go_to_bottom
  rw [sfields_adjust]
  rfl

theorem sfields_toggle (d : Display) :
    sfields d.toggle_visual = sfields d := by
  unfold Display.toggle_visual; split_ifs <;> rfl

theorem sfields_yank (d : Display) (cn cs : Except String Unit) :
    sfields (d.yank cn cs).1 = sfields d := by
  unfold Display.yank
  cases hcb : d.clipboard <;> cases cn <;> cases cs <;> rfl

theorem sfields_push_line (d : Display) (l : Str) :
    sfields (d.push_line l) = sfields d := by
  simp only [Display.push_line]; split_ifs <;> rfl

theorem sfields_search_push (d : Display) (c : Char) :
    sfields (d.search_push c) = sfields d := rfl

theorem sfields_search_pop (d : Display) :
    sfields d.search_pop = sfields d := rfl

theorem next_match_mode (d : Display) (h : Nat) :
    (d.next_match h).search_mode = d.search_mode := by
  simp only [Display.next_match]
  split_ifs <;> (try rw [adjust_scroll_mode]) <;> rfl

theorem next_match_matches (d : Display) (h : Nat) :
    (d.next_match h).search_matches = d.search_matches := by
  simp only [Display.next_match]
  split_ifs <;> (try rw [adjust_scroll_matches]) <;> rfl

theorem prev_match_mode (d : Display) (h : Nat) :
    (d.prev_match h).search_mode = d.search_mode := by
  simp only [Display.prev_match]
  split_ifs <;> (try rw [adjust_scroll_mode]) <;> rfl

theorem prev_match_matches (d : Display) (h : Nat) :
    (d.prev_match h).search_matches = d.search_matches := by
  simp only [Display.prev_match]
  split_ifs <;> (try rw [adjust_scroll_matches]) <;> rfl

theorem execute_search_mode (d : Display) (h : Nat) :
    (d.execute_search h).search_mode = d.search_mode := by
  simp only [Display.execute_search]
  split_ifs
  · rfl
  · split
    · rfl
    · rw [adjust_scroll_mode]

theorem finish_search_mode (d : Display) (h : Nat) :
    (d.finish_search h).search_mode = false := by
  unfold Display.finish_search
  rw [execute_search_mode]

theorem sfields_yank_action (d : Display) (cn cs : Except String Unit) :
    sfields (d.yank_action cn cs).1 = sfields d := by
  unfold Display.yank_action Display.yank
  cases hcb : d.clipboard <;> cases cn <;> cases cs <;> rfl

/-! ## The match-cursor invariant (claims C10, C8) -/


theorem inv10_congr {d' d : Display}
    (hm : d'.search_matches = d.search_matches)
    (hi : d'.search_match_idx = d.search_match_idx) (h : Inv10 d) :
    Inv10 d' := by
  unfold Inv10 at *
  rw [hm, hi]
  exact h

theorem inv10_of_sfields {d' d : Display} (h : sfields d' = sfields d)
    (hi : Inv10 d) : Inv10 d' :=
  inv10_congr (congrArg (fun x => x.2.1) h) (congrArg (fun x => x.2.2) h) hi

theorem sminv_congr {d' d : Display}
    (hm : d'.search_mode = d.search_mode)
    (hl : d'.search_matches = d.search_matches) (h : SMInv d) :
    SMInv d' := by
  unfold SMInv at *
  rw [hm, hl]
  exact h

theorem sminv_of_sfields {d' d : Display} (h : sfields d' = sfields d)
    (hs : SMInv d) : SMInv d' :=
  sminv_congr (congrArg (fun x => x.1) h) (congrArg (fun x => x.2.1) h) hs

theorem inv10_next (d : Display) (h : Nat) (hi : Inv10 d) :
    Inv10 (d.next_match h) := by
  simp only [Display.next_match]
  split_ifs with hm
  · exact hi
  · refine inv10_congr (adjust_scroll_matches _ _) (adjust_scroll_idx _ _) ?_
    intro _
    exact Nat.mod_lt _ (List.length_pos.mpr hm)

theorem inv10_prev (d : Display) (h : Nat) (hi : Inv10 d) :
    Inv10 (d.prev_match h) := by
  simp only [Display.prev_match]
  split_ifs with hm h0
  · exact hi
  · refine inv10_congr (adjust_scroll_matches _ _) (adjust_scroll_idx _ _) ?_
    intro _
    have := List.length_pos.mpr hm
    dsimp only
    omega
  · refine inv10_congr (adjust_scroll_matches _ _) (adjust_scroll_idx _ _) ?_
    intro _
    have := hi hm
    dsimp only
    omega

theorem inv10_start (d : Display) : Inv10 d.start_search := by
  intro hne
  exact absurd rfl hne

theorem inv10_cancel (d : Display) : Inv10 d.cancel_search := by
  intro hne
  exact absurd rfl hne

theorem inv10_execute (d : Display) (h : Nat) : Inv10 (d.execute_search h) := by
  simp only [Display.execute_search]
  split_ifs
  · intro hne
    exact absurd rfl hne
  · split
    · rename_i heq
      intro hne
      dsimp only at hne heq
      exact absurd heq hne
    · rename_i heq
      refine inv10_congr (adjust_scroll_matches _ _) (adjust_scroll_idx _ _) ?_
      intro _
      dsimp only at heq ⊢
      rw [heq]
      simp

theorem inv10_finish (d : Display) (h : Nat) : Inv10 (d.finish_search h) :=
  inv10_execute _ h

theorem inv10_yank_action (d : Display) (cn cs : Except String Unit)
    (hi : Inv10 d) : Inv10 (d.yank_action cn cs).1 :=
  inv10_of_sfields (sfields_yank_action d cn cs) hi

/-- Case analysis on `handle_key_tail`: every key resolves to one of the
fourteen arm results. -/
theorem tail_elim (motive : Display × Option DisplayAction → Prop)
    (d : Display) (key : KeyEvent) (h : Nat) (cn cs : Except String Unit)
    (c1 : motive (d.half_page_up h, none))
    (c2 : motive (d.half_page_down h, none))
    (c3 : motive ({ d with pending_g := true }, none))
    (c4 : motive (d.go_to_bottom h, none))
    (c5 : motive (d.start_search, none))
    (c6 : motive (d.next_match h, none))
    (c7 : motive (d.prev_match h, none))
    (c8 : motive (d.toggle_visual, none))
    (c9 : motive (d.yank_action cn cs))
    (c10 : motive ({ d with selection_start := none }, none))
    (c11 : motive (d.move_up h, none))
    (c12 : motive (d.move_down h, none))
    (c13 : motive (d, some .focusInput))
    (c14 : motive (d, none)) :
    motive (d.handle_key_tail key h cn cs) := by
  unfold Display.handle_key_tail
  by_cases h1 : key.mods = .control ∧ key.code = .char 'u'
  · rw [if_pos h1]; exact c1
  rw [if_neg h1]
  by_cases h2 : key.mods = .control ∧ key.code = .char 'd'
  · rw [if_pos h2]; exact c2
  rw [if_neg h2]
  by_cases h3 : key.code = .char 'g'
  · rw [if_pos h3]; exact c3
  rw [if_neg h3]
  by_cases h4 : key.mods = .shift ∧ key.code = .char 'G'
  · rw [if_pos h4]; exact c4
  rw [if_neg h4]
  by_cases h5 : key.code = .char '/'
  · rw [if_pos h5]; exact c5
  rw [if_neg h5]
  by_cases h6 : key.code = .char 'n'
  · rw [if_pos h6]; exact c6
  rw [if_neg h6]
  by_cases h7 : key.mods = .shift ∧ key.code = .char 'N'
  · rw [if_pos h7]; exact c7
  rw [if_neg h7]
  by_cases h8 : key.code = .char 'v' ∨ (key.mods = .shift ∧ key.code = .char 'V')
  · rw [if_pos h8]; exact c8
  rw [if_neg h8]
  by_cases h9 : key.code = .char 'y'
  · rw [if_pos h9]; exact c9
  rw [if_neg h9]
  by_cases h10 : key.code = .esc ∧ d.in_visual_mode
  · rw [if_pos h10]; exact c10
  rw [if_neg h10]
  by_cases h11 : key.code = .char 'k' ∨ key.code = .up
  · rw [if_pos h11]; exact c11
  rw [if_neg h11]
  by_cases h12 : key.code = .char 'j' ∨ key.code = .down
  · rw [if_pos h12]; exact c12
  rw [if_neg h12]
  by_cases h13 : key.code = .enter
  · rw [if_pos h13]; exact c13
  rw [if_neg h13]
  exact c14

theorem inv10_tail (d : Display) (key : KeyEvent) (h : Nat)
    (cn cs : Except String Unit) (hi : Inv10 d) :
    Inv10 (d.handle_key_tail key h cn cs).1 := by
  refine tail_elim (fun r => Inv10 r.1) d key h cn cs ?_ ?_ ?_ ?_ ?_ ?_ ?_ ?_ ?_ ?_ ?_ ?_ ?_ ?_
  · exact inv10_of_sfields (sfields_half_up _ _) hi
  · exact inv10_of_sfields (sfields_half_down _ _) hi
  · exact hi
  · exact inv10_of_sfields (sfields_go_bottom _ _) hi
  · exact inv10_start _
  · exact inv10_next _ _ hi
  · exact inv10_prev _ _ hi
  · exact inv10_of_sfields (sfields_toggle _) hi
  · exact inv10_yank_action _ _ _ hi
  · exact hi
  · exact inv10_of_sfields (sfields_move_up _ _) hi
  · exact inv10_of_sfields (sfields_move_down _ _) hi
  · exact hi
  · exact hi

theorem inv10_handle_key (d : Display) (key : KeyEvent) (h : Nat)
    (cn cs : Except String Unit) (hi : Inv10 d) :
    Inv10 (d.handle_key key h cn cs).1 := by
  simp only [Display.handle_key]
  split_ifs <;>
    first
    | exact inv10_tail _ _ _ _ _ hi
    | exact inv10_of_sfields (sfields_go_top _ _) hi
    | (split <;>
        first
        | exact inv10_cancel _
        | exact inv10_finish _ _
        | exact inv10_of_sfields (sfields_search_pop _) hi
        | exact inv10_of_sfields (sfields_search_push _ _) hi
        | exact hi)

/-- C10's invariant is preserved by every public operation. -/
theorem inv10_dop (op : DOp) (d : Display) (hi : Inv10 d) :
    Inv10 (op.apply d) := by
  cases op <;> simp only [DOp.apply] <;>
    first
    | exact inv10_of_sfields (sfields_push_line _ _) hi
    | exact inv10_of_sfields (sfields_move_up _ _) hi
    | exact inv10_of_sfields (sfields_move_down _ _) hi
    | exact inv10_of_sfields (sfields_half_up _ _) hi
    | exact inv10_of_sfields (sfields_half_down _ _) hi
    | exact inv10_of_sfields (sfields_go_top _ _) hi
    | exact inv10_of_sfields (sfields_go_bottom _ _) hi
    | exact inv10_of_sfields (sfields_toggle _) hi
    | exact inv10_of_sfields (sfields_yank _ _ _) hi
    | exact inv10_start _
    | exact inv10_finish _ _
    | exact inv10_cancel _
    | exact inv10_of_sfields (sfields_search_push _ _) hi
    | exact inv10_of_sfields (sfields_search_pop _) hi
    | exact inv10_next _ _ hi
    | exact inv10_prev _ _ hi
    | exact inv10_of_sfields (sfields_adjust _ _) hi
    | exact inv10_handle_key _ _ _ _ _ hi

theorem sminv_start (d : Display) : SMInv d.start_search :=
  fun _ => rfl

theorem sminv_cancel (d : Display) : SMInv d.cancel_search := by
  intro h
  exact absurd h (by simp [Display.cancel_search])

theorem sminv_finish (d : Display) (h : Nat) : SMInv (d.finish_search h) := by
  intro hm
  rw [finish_search_mode] at hm
  cases hm

theorem sminv_next (d : Display) (h : Nat) (hs : SMInv d) :
    SMInv (d.next_match h) :=
  sminv_congr (next_match_mode d h) (next_match_matches d h) hs

theorem sminv_prev (d : Display) (h : Nat) (hs : SMInv d) :
    SMInv (d.prev_match h) :=
  sminv_congr (prev_match_mode d h) (prev_match_matches d h) hs

theorem sminv_yank_action (d : Display) (cn cs : Except String Unit)
    (hs : SMInv d) : SMInv (d.yank_action cn cs).1 :=
  sminv_of_sfields (sfields_yank_action d cn cs) hs

theorem sminv_tail (d : Display) (key : KeyEvent) (h : Nat)
    (cn cs : Except String Unit) (hs : SMInv d) :
    SMInv (d.handle_key_tail key h cn cs).1 := by
  refine tail_elim (fun r => SMInv r.1) d key h cn cs ?_ ?_ ?_ ?_ ?_ ?_ ?_ ?_ ?_ ?_ ?_ ?_ ?_ ?_
  · exact sminv_of_sfields (sfields_half_up _ _) hs
  · exact sminv_of_sfields (sfields_half_down _ _) hs
  · exact hs
  · exact sminv_of_sfields (sfields_go_bottom _ _) hs
  · exact sminv_start _
  · exact sminv_next _ _ hs
  · exact sminv_prev _ _ hs
  · exact sminv_of_sfields (sfields_toggle _) hs
  · exact sminv_yank_action _ _ _ hs
  · exact hs
  · exact sminv_of_sfields (sfields_move_up _ _) hs
  · exact sminv_of_sfields (sfields_move_down _ _) hs
  · exact hs
  · exact hs

theorem sminv_handle_key (d : Display) (key : KeyEvent) (h : Nat)
    (cn cs : Except String Unit) (hs : SMInv d) :
    SMInv (d.handle_key key h cn cs).1 := by
  simp only [Display.handle_key]
  split_ifs <;>
    first
    | exact sminv_tail _ _ _ _ _ hs
    | exact sminv_of_sfields (sfields_go_top _ _) hs
    | (split <;>
        first
        | exact sminv_cancel _
        | exact sminv_finish _ _
        | exact sminv_of_sfields (sfields_search_pop _) hs
        | exact sminv_of_sfields (sfields_search_push _ _) hs
        | exact hs)

/-- The search-mode invariant is preserved by every public operation. -/
theorem sminv_dop (op : DOp) (d : Display) (hs : SMInv d) :
    SMInv (op.apply d) := by
  cases op <;> simp only [DOp.apply] <;>
    first
    | exact sminv_of_sfields (sfields_push_line _ _) hs
    | exact sminv_of_sfields (sfields_move_up _ _) hs
    | exact sminv_of_sfields (sfields_move_down _ _) hs
    | exact sminv_of_sfields (sfields_half_up _ _) hs
    | exact sminv_of_sfields (sfields_half_down _ _) hs
    | exact sminv_of_sfields (sfields_go_top _ _) hs
    | exact sminv_of_sfields (sfields_go_bottom _ _) hs
    | exact sminv_of_sfields (sfields_toggle _) hs
    | exact sminv_of_sfields (sfields_yank _ _ _) hs
    | exact sminv_start _
    | exact sminv_finish _ _
    | exact sminv_cancel _
    | exact sminv_of_sfields (sfields_search_push _ _) hs
    | exact sminv_of_sfields (sfields_search_pop _) hs
    | exact sminv_next _ _ hs
    | exact sminv_prev _ _ hs
    | exact sminv_of_sfields (sfields_adjust _ _) hs
    | exact sminv_handle_key _ _ _ _ _ hs

/-- Every reachable state satisfies the search-mode invariant: while the
widget is in search mode the match list is empty. -/
theorem dreach_sminv {d : Display} (hr : DReach d) : SMInv d := by
  induction hr with
  | base =>
    intro h
    exact absurd h (by simp [Display.new])
  | step op hr ih => exact sminv_dop op _ ih

/-! ## The navigation invariant (claim C2) -/


theorem getD_mem_of_lt {l : List Nat} {i : Nat} (h : i < l.length) :
    l.getD i 0 ∈ l := by
  rw [List.getD_eq_getElem l 0 h]
  exact List.getElem_mem h

theorem DInv_adjust (d : Display) (h : Nat) (h4 : 4 ≤ h)
    (hc : d.cursor < d.lines.length)
    (hm : ∀ i ∈ d.search_matches, i < d.lines.length)
    (hx : d.search_matches ≠ [] → d.search_match_idx < d.search_matches.length) :
    DInv (d.adjust_scroll h) h := by
  obtain ⟨h1, h2⟩ := adjust_scroll_spec d h h4 hc
  refine ⟨?_, ?_, ?_, ?_, ?_⟩
  · rw [adjust_scroll_cursor]
    exact h1
  · rw [adjust_scroll_cursor, adjust_scroll_lines]
    exact hc
  · rw [adjust_scroll_cursor]
    exact h2
  · rw [adjust_scroll_matches, adjust_scroll_lines]
    exact hm
  · rw [adjust_scroll_matches, adjust_scroll_idx]
    exact hx

theorem dinv_cursor_op (op : CursorOp) (d : Display) (h : Nat)
    (h4 : 4 ≤ h) (hinv : DInv d h) : DInv (op.apply d h) h := by
  obtain ⟨i1, i2, i3, i4, i5⟩ := hinv
  cases op <;> simp only [CursorOp.apply]
  · unfold Display.move_up
    split_ifs with hp
    · refine DInv_adjust _ h h4 ?_ ?_ ?_ <;> dsimp only
      · omega
      · exact i4
      · exact i5
    · exact ⟨i1, i2, i3, i4, i5⟩
  · unfold Display.move_down
    split_ifs with hp
    · refine DInv_adjust _ h h4 ?_ ?_ ?_ <;> dsimp only
      · omega
      · exact i4
      · exact i5
    · exact ⟨i1, i2, i3, i4, i5⟩
  · unfold Display.half_page_up
    refine DInv_adjust _ h h4 ?_ ?_ ?_ <;> dsimp only
    · omega
    · exact i4
    · exact i5
  · unfold Display.half_page_down
    refine DInv_adjust _ h h4 ?_ ?_ ?_ <;> dsimp only
    · omega
    · exact i4
    · exact i5
  · unfold Display.go_to_top
    refine DInv_adjust _ h h4 ?_ ?_ ?_ <;> dsimp only
    · omega
    · exact i4
    · exact i5
  · unfold Display.go_to_bottom
    refine DInv_adjust _ h h4 ?_ ?_ ?_ <;> dsimp only
    · omega
    · exact i4
    · exact i5
  · unfold Display.next_match
    split_ifs with hm
    · exact ⟨i1, i2, i3, i4, i5⟩
    · refine DInv_adjust _ h h4 ?_ ?_ ?_ <;> dsimp only
      · refine i4 _ (getD_mem_of_lt ?_)
        exact Nat.mod_lt _ (List.length_pos.mpr hm)
      · exact i4
      · intro _
        exact Nat.mod_lt _ (List.length_pos.mpr hm)
  · unfold Display.prev_match
    split_ifs with hm h0
    · exact ⟨i1, i2, i3, i4, i5⟩
    · refine DInv_adjust _ h h4 ?_ ?_ ?_ <;> dsimp only
      · refine i4 _ (getD_mem_of_lt ?_)
        have := List.length_pos.mpr hm
        omega
      · exact i4
      · intro _
        have := List.length_pos.mpr hm
        omega
    · refine DInv_adjust _ h h4 ?_ ?_ ?_ <;> dsimp only
      · refine i4 _ (getD_mem_of_lt ?_)
        have := i5 hm
        omega
      · exact i4
      · intro _
        have := i5 hm
        omega

/-! ## Search loop characterization (claim C6) -/

theorem searchLoop_lb (ql : Str) (ls : List Str) :
    ∀ i j, j ∈ searchLoop ql i ls → i ≤ j := by
  induction ls with
  | nil =>
    intro i j hj
    simp [searchLoop] at hj
  | cons l ls ih =>
    intro i j hj
    by_cases hc : ql <:+: toLowerS l
    · simp only [searchLoop, if_pos hc, List.mem_cons] at hj
      rcases hj with rfl | hj
      · exact le_refl _
      · have := ih (i + 1) j hj
        omega
    · simp only [searchLoop, if_neg hc] at hj
      have := ih (i + 1) j hj
      omega

theorem searchLoop_mem (ql : Str) (ls : List Str) :
    ∀ i j, j ∈ searchLoop ql i ls ↔
      i ≤ j ∧ j - i < ls.length ∧ ql <:+: toLowerS (ls.getD (j - i) []) := by
  induction ls with
  | nil =>
    intro i j
    simp [searchLoop]
  | cons l ls ih =>
    intro i j
    by_cases hc : ql <:+: toLowerS l
    · simp only [searchLoop, if_pos hc, List.mem_cons]
      constructor
      · rintro (rfl | hj)
        · refine ⟨le_refl _, by simp, ?_⟩
          simpa using hc
        · obtain ⟨a1, a2, a3⟩ := (ih (i + 1) j).mp hj
          refine ⟨by omega, by simp only [List.length_cons]; omega, ?_⟩
          have hji : j - i = (j - (i + 1)) + 1 := by omega
          rw [hji]
          simpa using a3
      · rintro ⟨a1, a2, a3⟩
        by_cases hji : j = i
        · exact Or.inl hji
        · right
          refine (ih (i + 1) j).mpr ⟨by omega, ?_, ?_⟩
          · simp only [List.length_cons] at a2
            omega
          · have hji2 : j - i = (j - (i + 1)) + 1 := by omega
            rw [hji2] at a3
            simpa using a3
    · simp only [searchLoop, if_neg hc]
      rw [ih (i + 1) j]
      constructor
      · rintro ⟨a1, a2, a3⟩
        refine ⟨by omega, by simp only [List.length_cons]; omega, ?_⟩
        have hji : j - i = (j - (i + 1)) + 1 := by omega
        rw [hji]
        simpa using a3
      · rintro ⟨a1, a2, a3⟩
        have hji : j ≠ i := by
          rintro rfl
          simp only [Nat.sub_self, List.getD_cons_zero] at a3
          exact hc a3
        refine ⟨by omega, ?_, ?_⟩
        · simp only [List.length_cons] at a2
          omega
        · have hji2 : j - i = (j - (i + 1)) + 1 := by omega
          rw [hji2] at a3
          simpa using a3

theorem searchLoop_sorted (ql : Str) (ls : List Str) :
    ∀ i, List.Pairwise (· < ·) (searchLoop ql i ls) := by
  induction ls with
  | nil =>
    intro i
    simp [searchLoop]
  | cons l ls ih =>
    intro i
    by_cases hc : ql <:+: toLowerS l
    · simp only [searchLoop, if_pos hc]
      refine List.Pairwise.cons ?_ (ih (i + 1))
      intro j hj
      have := searchLoop_lb ql ls (i + 1) j hj
      omega
    · simp only [searchLoop, if_neg hc]
      exact ih (i + 1)

/-! ## Reader framing lemmas (claim C3) -/

theorem readFold_nl_empty (evs : List (List Nat)) {b : Nat}
    (hb : b = 10 ∨ b = 13) : readFold ([], evs) b = ([], evs) := by
  rcases hb with rfl | rfl <;> rfl

theorem readFold_nl (buf : List Nat) (evs : List (List Nat)) {b : Nat}
    (hb : b = 10 ∨ b = 13) (hbuf : buf ≠ []) :
    readFold (buf, evs) b = ([], evs ++ [buf]) := by
  rcases hb with rfl | rfl <;> simp [readFold, hbuf]

theorem readFold_other (buf : List Nat) (evs : List (List Nat)) {b : Nat}
    (hb : ¬(b = 10 ∨ b = 13)) : readFold (buf, evs) b = (buf ++ [b], evs) := by
  simp [readFold, hb]

theorem foldl_readFold_acc (chunk : List Nat) :
    ∀ (buf : List Nat) (evs : List (List Nat)),
      chunk.foldl readFold (buf, evs) =
        ((processChunk buf chunk).1, evs ++ (processChunk buf chunk).2) := by
  induction chunk with
  | nil =>
    intro buf evs
    simp [processChunk]
  | cons b rest ih =>
    intro buf evs
    simp only [processChunk, List.foldl_cons]
    by_cases hb : b = 10 ∨ b = 13
    · by_cases hbuf : buf = []
      · subst hbuf
        rw [readFold_nl_empty evs hb, readFold_nl_empty [] hb]
        exact ih [] evs
      · rw [readFold_nl buf evs hb hbuf, readFold_nl buf [] hb hbuf]
        rw [ih [] (evs ++ [buf]), ih [] ([] ++ [buf])]
        simp
    · rw [readFold_other buf evs hb, readFold_other buf [] hb]
      exact ih (buf ++ [b]) evs

theorem processChunk_cons (buf : List Nat) (b : Nat) (rest : List Nat) :
    processChunk buf (b :: rest) =
      ((processChunk (readFold (buf, []) b).1 rest).1,
        (readFold (buf, []) b).2 ++
          (processChunk (readFold (buf, []) b).1 rest).2) := by
  rcases hr : readFold (buf, ([] : List (List Nat))) b with ⟨buf', evs0⟩
  simp only [processChunk, List.foldl_cons, hr]
  exact foldl_readFold_acc rest buf' evs0

theorem processChunk_flatten (chunk : List Nat) :
    ∀ buf : List Nat,
      (processChunk buf chunk).2.flatten ++ (processChunk buf chunk).1 =
        buf ++ chunk.filter notNewline := by
  induction chunk with
  | nil =>
    intro buf
    simp [processChunk]
  | cons b rest ih =>
    intro buf
    rw [processChunk_cons]
    by_cases hb : b = 10 ∨ b = 13
    · have hnl : notNewline b = false := by
        unfold notNewline
        rcases hb with rfl | rfl <;> rfl
      by_cases hbuf : buf = []
      · subst hbuf
        rw [readFold_nl_empty [] hb]
        simpa [List.filter_cons, hnl] using ih []
      · rw [readFold_nl buf [] hb hbuf]
        have h2 := ih []
        simp only [List.nil_append] at h2
        simp only [List.filter_cons, hnl, Bool.false_eq_true, if_false]
        simp [List.append_assoc, h2]
    · have hnl : notNewline b = true := by
        unfold notNewline
        simp [hb]
      rw [readFold_other buf [] hb]
      have h2 := ih (buf ++ [b])
      simp only [List.filter_cons, hnl, if_true]
      simpa [List.append_assoc] using h2

theorem processChunk_events_ok (chunk : List Nat) :
    ∀ buf : List Nat,
      ((processChunk buf chunk).2.all fun e => !e.isEmpty) = true := by
  induction chunk with
  | nil =>
    intro buf
    simp [processChunk]
  | cons b rest ih =>
    intro buf
    rw [processChunk_cons]
    by_cases hb : b = 10 ∨ b = 13
    · by_cases hbuf : buf = []
      · subst hbuf
        rw [readFold_nl_empty [] hb]
        simpa using ih []
      · rw [readFold_nl buf [] hb hbuf]
        have h2 := ih []
        simp only [List.nil_append] at h2
        simp [List.all_append, h2, hbuf]
    · rw [readFold_other buf [] hb]
      simpa using ih (buf ++ [b])

theorem processChunk_all_notNewline (chunk : List Nat) :
    ∀ buf : List Nat, chunk.all notNewline = true →
      processChunk buf chunk = (buf ++ chunk, []) := by
  induction chunk with
  | nil =>
    intro buf _
    simp [processChunk]
  | cons b rest ih =>
    intro buf hall
    simp only [List.all_cons, Bool.and_eq_true] at hall
    have hb : ¬(b = 10 ∨ b = 13) := by
      have := hall.1
      unfold notNewline at this
      simpa using this
    rw [processChunk_cons, readFold_other buf [] hb]
    rw [ih (buf ++ [b]) hall.2]
    simp

theorem readFold_lf_fst (st : List Nat × List (List Nat)) :
    (readFold st 10).1 = [] := by
  rcases st with ⟨buf, evs⟩
  by_cases hbuf : buf = []
  · subst hbuf
    rfl
  · rw [readFold_nl buf evs (Or.inl rfl) hbuf]

theorem processChunk_trailing_lf (buf chunk : List Nat) :
    (processChunk buf (chunk ++ [10])).1 = [] := by
  simp only [processChunk, List.foldl_append, List.foldl_cons, List.foldl_nil]
  exact readFold_lf_fst _

/-! ## Hub send lemmas (claims C4, C5) -/

theorem enqueue_ports (hub : SerialHub) (name : String) (buf : List Nat)
    (n : String) :
    (hub.enqueue name buf).ports n =
      if n = name then
        (hub.ports n).map fun p => { p with queue := p.queue ++ [buf] }
      else hub.ports n := rfl

theorem enqueue_isLive (hub : SerialHub) (name : String) (buf : List Nat)
    (n : String) : (hub.enqueue name buf).isLive n = hub.isLive n := by
  unfold SerialHub.isLive
  rw [enqueue_ports]
  split_ifs with h
  · cases hub.ports n <;> rfl
  · rfl

/-- Rust `SerialHub::send` over targets that are all registered with live
writers: no error, and every port's queue is extended by one copy of
`payload ++ line_ending` per occurrence of its name in the target list. -/
theorem send_all_live (payload : List Nat) (targets : List String) :
    ∀ hub : SerialHub, (∀ t ∈ targets, hub.isLive t = true) →
      (SerialHub.send payload hub targets).2 = none ∧
      ∀ n, (SerialHub.send payload hub targets).1.ports n =
        (hub.ports n).map fun p =>
          { p with queue :=
              p.queue ++ List.replicate (targets.count n) (payload ++ p.line_ending.as_bytes) } := by
  induction targets with
  | nil =>
    intro hub _
    refine ⟨rfl, fun n => ?_⟩
    cases hp : hub.ports n <;> simp [SerialHub.send, hp]
  | cons t rest ih =>
    intro hub hlive
    have ht := hlive t (List.mem_cons_self t rest)
    rcases hp : hub.ports t with _ | p
    · simp [SerialHub.isLive, hp] at ht
    · have hc : p.connected = true := by
        simpa [SerialHub.isLive, hp] using ht
      obtain ⟨ih1, ih2⟩ :=
        ih (hub.enqueue t (payload ++ p.line_ending.as_bytes))
          (fun x hx => by
            rw [enqueue_isLive]
            exact hlive x (List.mem_cons_of_mem _ hx))
      constructor
      · simpa [SerialHub.send, hp, hc] using ih1
      · intro n
        have hsend :
            (SerialHub.send payload hub (t :: rest)).1 =
              (SerialHub.send payload
                (hub.enqueue t (payload ++ p.line_ending.as_bytes)) rest).1 := by
          simp [SerialHub.send, hp, hc]
        rw [hsend, ih2 n, enqueue_ports]
        by_cases hn : n = t
        · subst hn
          rw [if_pos rfl, hp, List.count_cons_self]
          simp [List.replicate_succ, List.append_assoc]
        · rw [if_neg hn, List.count_cons_of_ne hn]

/-- Rust `SerialHub::send` stops at the first unknown target with
`PortNotFound`, keeping the buffers already enqueued for earlier
targets. -/
theorem send_first_missing (payload : List Nat) (pre : List String) :
    ∀ (hub : SerialHub) (bad : String) (rest : List String),
      (∀ t ∈ pre, hub.isLive t = true) → hub.ports bad = none →
      SerialHub.send payload hub (pre ++ bad :: rest) =
        ((SerialHub.send payload hub pre).1,
          some (.PortNotFound bad)) := by
  induction pre with
  | nil =>
    intro hub bad rest _ hbad
    simp [SerialHub.send, hbad]
  | cons t pre ih =>
    intro hub bad rest hlive hbad
    have ht := hlive t (List.mem_cons_self t pre)
    rcases hp : hub.ports t with _ | p
    · simp [SerialHub.isLive, hp] at ht
    · have hc : p.connected = true := by
        simpa [SerialHub.isLive, hp] using ht
      have hbad2 : (hub.enqueue t (payload ++ p.line_ending.as_bytes)).ports bad = none := by
        rw [enqueue_ports]
        split_ifs <;> simp [hbad]
      have := ih (hub.enqueue t (payload ++ p.line_ending.as_bytes)) bad rest
        (fun x hx => by
          rw [enqueue_isLive]
          exact hlive x (List.mem_cons_of_mem _ hx)) hbad2
      simp only [List.cons_append]
      simp [SerialHub.send, hp, hc, this]

/-- Rust `SerialHub::send` to a single live target: unconditional enqueue and
no error, whatever the queue already holds. -/
theorem send_one_live (payload : List Nat) (hub : SerialHub) (t : String)
    (p : ManagedPort) (hp : hub.ports t = some p) (hc : p.connected = true) :
    SerialHub.send payload hub [t] =
      (hub.enqueue t (payload ++ p.line_ending.as_bytes), none) := by
  simp [SerialHub.send, hp, hc]

/-! ## Color parsing lemmas (claim C9) -/

theorem charBytes_ascii {c : Char} (h : c.val < 128) : charBytes c = 1 := by
  unfold charBytes
  rw [if_pos h]

theorem utf8Len_ascii (cs : List Char) (h : ∀ c ∈ cs, c.val < 128) :
    utf8Len cs = cs.length := by
  induction cs with
  | nil => rfl
  | cons c rest ih =>
    unfold utf8Len at *
    simp only [List.map_cons, List.sum_cons, List.length_cons]
    rw [charBytes_ascii (h c (List.mem_cons_self c rest)),
        ih fun x hx => h x (List.mem_cons_of_mem _ hx)]
    omega

theorem dropBytes_ascii (cs : List Char) :
    ∀ n, (∀ c ∈ cs, c.val < 128) → n ≤ cs.length →
      dropBytes cs n = some (cs.drop n) := by
  induction cs with
  | nil =>
    intro n _ hn
    have hn0 : n = 0 := by simpa using hn
    subst hn0
    rfl
  | cons c rest ih =>
    intro n hascii hn
    match n with
    | 0 => rfl
    | n + 1 =>
      have hc : charBytes c = 1 :=
        charBytes_ascii (hascii c (List.mem_cons_self c rest))
      unfold dropBytes
      rw [if_pos (by omega)]
      rw [hc]
      simp only [Nat.add_sub_cancel, List.drop_succ_cons]
      exact ih n (fun x hx => hascii x (List.mem_cons_of_mem _ hx))
        (by simpa using hn)

theorem takeBytes_ascii (cs : List Char) :
    ∀ n, (∀ c ∈ cs, c.val < 128) → n ≤ cs.length →
      takeBytes cs n = some (cs.take n) := by
  induction cs with
  | nil =>
    intro n _ hn
    have hn0 : n = 0 := by simpa using hn
    subst hn0
    rfl
  | cons c rest ih =>
    intro n hascii hn
    match n with
    | 0 => rfl
    | n + 1 =>
      have hc : charBytes c = 1 :=
        charBytes_ascii (hascii c (List.mem_cons_self c rest))
      unfold takeBytes
      rw [if_pos (by omega)]
      rw [hc]
      simp only [Nat.add_sub_cancel, List.take_succ_cons]
      rw [ih n (fun x hx => hascii x (List.mem_cons_of_mem _ hx))
        (by simpa using hn)]
      rfl

theorem sliceBytes_ascii (cs : List Char) (a b : Nat)
    (hascii : ∀ c ∈ cs, c.val < 128) (hab : a ≤ b) (hb : b ≤ cs.length) :
    sliceBytes cs a b = some ((cs.drop a).take (b - a)) := by
  unfold sliceBytes
  rw [dropBytes_ascii cs a hascii (by omega)]
  exact takeBytes_ascii (cs.drop a) (b - a)
    (fun x hx => hascii x (List.mem_of_mem_drop hx))
    (by simp; omega)


theorem namedColor_not_mem (l : List Char) (h : l ∉ colorNames) :
    namedColor l = .err := by
  simp only [colorNames, List.mem_cons, List.not_mem_nil, or_false,
    not_or] at h
  obtain ⟨n1, n2, n3, n4, n5, n6, n7, n8, n9, n10, n11⟩ := h
  unfold namedColor
  rw [if_neg n1, if_neg n2, if_neg n3, if_neg n4, if_neg n5, if_neg n6,
    if_neg n7, if_neg n8, if_neg n9, if_neg n10, if_neg n11]

theorem namedColor_mem (l : List Char) (h : l ∈ colorNames) :
    ∃ v, namedColor l = .ok v := by
  simp only [colorNames, List.mem_cons, List.not_mem_nil, or_false] at h
  rcases h with rfl | rfl | rfl | rfl | rfl | rfl | rfl | rfl | rfl | rfl | rfl
  · exact ⟨.reset, rfl⟩
  · exact ⟨.black, rfl⟩
  · exact ⟨.red, rfl⟩
  · exact ⟨.green, rfl⟩
  · exact ⟨.yellow, rfl⟩
  · exact ⟨.blue, rfl⟩
  · exact ⟨.magenta, rfl⟩
  · exact ⟨.cyan, rfl⟩
  · exact ⟨.gray, rfl⟩
  · exact ⟨.gray, rfl⟩
  · exact ⟨.white, rfl⟩

theorem namedColor_ne_panics (l : List Char) : namedColor l ≠ .panics := by
  by_cases h : l ∈ colorNames
  · obtain ⟨v, hv⟩ := namedColor_mem l h
    rw [hv]
    intro hx
    cases hx
  · rw [namedColor_not_mem l h]
    intro hx
    cases hx

theorem namedColor_err_iff (l : List Char) :
    namedColor l = .err ↔ l ∉ colorNames := by
  constructor
  · intro he hmem
    obtain ⟨v, hv⟩ := namedColor_mem l hmem
    rw [hv] at he
    cases he
  · exact namedColor_not_mem l

theorem hexColor_no_panic (cs : List Char)
    (hascii : ∀ c ∈ cs, c.val < 128) : hexColor cs ≠ .panics := by
  unfold hexColor
  split_ifs with hlen
  · intro hx
    cases hx
  · have hlen7 : cs.length = 7 := by
      rw [← utf8Len_ascii cs hascii]
      omega
    rw [sliceBytes_ascii cs 1 3 hascii (by omega) (by omega)]
    dsimp only
    cases hp1 : parseHexU8 ((cs.drop 1).take (3 - 1))
    · intro hx
      cases hx
    · rw [sliceBytes_ascii cs 3 5 hascii (by omega) (by omega)]
      dsimp only
      cases hp2 : parseHexU8 ((cs.drop 3).take (5 - 3))
      · intro hx
        cases hx
      · rw [sliceBytes_ascii cs 5 7 hascii (by omega) (by omega)]
        dsimp only
        cases hp3 : parseHexU8 ((cs.drop 5).take (7 - 5))
        · intro hx
          cases hx
        · intro hx
          cases hx

/-! ## Claim C1: push at capacity -/

theorem push_line_matches (d : Display) (l : Str) :
    (d.push_line l).search_matches = d.search_matches :=
  congrArg (fun x => x.2.1) (sfields_push_line d l)

theorem push_line_selection (d : Display) (l : Str) :
    (d.push_line l).selection_start = d.selection_start := by
  simp only [Display.push_line]
  split_ifs <;> rfl


theorem dC1_len : dC1.lines.length = 10000 := by
  show (List.replicate 10000 ([] : Str)).length = 10000
  rw [List.length_replicate]

/-- C1 counterexample: at capacity, `push_line` leaves `search_matches`
and `selection_start` untouched, contradicting the claimed shift (which
here would give matches `[2]` and anchor `4`). -/
theorem c1_counterexample :
    dC1.lines.length = Display.MAX_LINES ∧
      dC1.search_matches = [0, 3] ∧
      dC1.selection_start = some 5 ∧
      specShiftMatches dC1.search_matches = [2] ∧
      specShiftAnchor dC1.selection_start = some 4 ∧
      (dC1.push_line ['x']).search_matches ≠ specShiftMatches dC1.search_matches ∧
      (dC1.push_line ['x']).selection_start ≠ specShiftAnchor dC1.selection_start := by
  refine ⟨by rw [dC1_len]; rfl, rfl, rfl, by decide, by decide, ?_, ?_⟩
  · rw [push_line_matches]
    decide
  · rw [push_line_selection]
    decide

/-- C1 (amended): when the buffer is at capacity, `push_line` evicts the
oldest line, decrements `view_start` (saturating at 0), leaves the
selection anchor, the match list and the match index unchanged, keeps the
length constant, and puts the cursor on the new last index. -/
theorem c1_push_line_at_capacity (d : Display) (l : Str)
    (hfull : d.lines.length ≥ Display.MAX_LINES) :
    (d.push_line l).lines = d.lines.tail ++ [l] ∧
      (d.push_line l).lines.length = d.lines.length ∧
      (d.push_line l).view_start = d.view_start - 1 ∧
      (d.push_line l).selection_start = d.selection_start ∧
      (d.push_line l).search_matches = d.search_matches ∧
      (d.push_line l).search_match_idx = d.search_match_idx ∧
      (d.push_line l).cursor = (d.push_line l).lines.length - 1 := by
  have hlen : 1 ≤ d.lines.length := by
    unfold Display.MAX_LINES at hfull
    omega
  unfold Display.push_line
  rw [if_pos hfull]
  refine ⟨rfl, ?_, rfl, rfl, rfl, rfl, rfl⟩
  show (d.lines.tail ++ [l]).length = d.lines.length
  simp only [List.length_append, List.length_tail, List.length_cons,
    List.length_nil]
  omega

/-- C1 witness: the amended theorem applied to the concrete full buffer
`dC1`. -/
theorem c1_push_line_at_capacity_witness :
    dC1.lines.length ≥ Display.MAX_LINES ∧
      (dC1.push_line ['x']).view_start = dC1.view_start - 1 :=
  ⟨by rw [dC1_len]; exact Nat.le_refl _,
    (c1_push_line_at_capacity dC1 ['x']
      (by rw [dC1_len]; exact Nat.le_refl _)).2.2.1⟩

/-! ## Claim C2: navigation invariant -/


/-- C2 counterexample: at height 2 the scroll margin
`(2 * 0.25) as usize` is 0, and `move_up` from a state satisfying the
invariant leaves `view_start = 8 > 7 = cursor`. -/
theorem c2_counterexample :
    0 < s2.lines.length ∧ 0 < (2 : Nat) ∧ DInv s2 2 ∧
      ¬((s2.move_up 2).view_start ≤ (s2.move_up 2).cursor) := by
  decide

/-- C2 (amended): for heights of at least 4 (so the 25% margin is at
least one line), every cursor operation preserves
`view_start ≤ cursor < len ∧ cursor − view_start < height` (together
with the in-range side conditions on the search matches that the code
maintains). -/
theorem c2_cursor_ops_preserve_invariant (op : CursorOp) (d : Display)
    (h : Nat) (h4 : 4 ≤ h) (hinv : DInv d h) : DInv (op.apply d h) h :=
  dinv_cursor_op op d h h4 hinv

/-- C2 witness: `move_up` at height 10 on the concrete state `s2`. -/
theorem c2_cursor_ops_preserve_invariant_witness :
    4 ≤ 10 ∧ DInv s2 10 ∧ DInv (CursorOp.apply .moveUp s2 10) 10 :=
  ⟨by decide, by decide,
    c2_cursor_ops_preserve_invariant .moveUp s2 10 (by decide) (by decide)⟩

/-! ## Claim C3: reader framing -/

/-- C3 counterexample: a successful read of the single byte `[97]` emits
no `Data` event at all (the byte is buffered), and a read of
`[97, 10, 98]` emits one event whose payload is `[97]`, not the three
bytes read — the reader frames by newlines. -/
theorem c3_counterexample :
    (processChunk [] [97]).2 = [] ∧
      (processChunk [] [97]).2 ≠ [[97]] ∧
      (processChunk [] [97, 10, 98]).2 = [[97]] ∧
      (processChunk [] [97, 10, 98]).1 = [98] := by
  decide

/-- C3 (amended): the reader frames by LF/CR.  Newline bytes are dropped
and every other byte is forwarded in order (the emitted payloads plus the
retained buffer equal the old buffer plus the newline-free bytes of the
chunk); every emitted payload is non-empty; a chunk without newline bytes
emits nothing and is appended to the line buffer; a chunk ending in LF
leaves the line buffer empty. -/
theorem c3_reader_frames_by_newline (buf chunk : List Nat) :
    (processChunk buf chunk).2.flatten ++ (processChunk buf chunk).1 =
        buf ++ chunk.filter notNewline ∧
      ((processChunk buf chunk).2.all fun e => !e.isEmpty) = true ∧
      processChunk buf (chunk.filter notNewline) =
        (buf ++ chunk.filter notNewline, []) ∧
      (processChunk buf (chunk ++ [10])).1 = [] :=
  ⟨processChunk_flatten chunk buf, processChunk_events_ok chunk buf,
    processChunk_all_notNewline (chunk.filter notNewline) buf
      (List.all_eq_true.mpr fun x hx => (List.mem_filter.mp hx).2),
    processChunk_trailing_lf buf chunk⟩

/-! ## Claim C4: writer queue boundedness -/


/-- C4 counterexample: with 32 buffers already pending, `send` to `B`
returns no error and enqueues a 33rd buffer — there is no bounded
capacity, no try-enqueue failure, and no `Backpressure` variant to
return. -/
theorem c4_counterexample :
    hub32.queueLen "B" = 32 ∧
      (SerialHub.send [66] hub32 ["B"]).2 = none ∧
      (SerialHub.send [66] hub32 ["B"]).1.queueLen "B" = 33 := by
  decide

/-- C4 (amended): the writer queue is an unbounded mpsc channel.  A send
to a registered port whose writer thread is alive never fails and appends
exactly one buffer whatever the queue already holds; `SerialError`'s
variants are exactly `PortNotFound`, `Open`, `Read`, `Write` and `Send` —
there is no `Backpressure`. -/
theorem c4_send_unbounded (hub : SerialHub) (t : String) (p : ManagedPort)
    (payload : List Nat) (hp : hub.ports t = some p)
    (hc : p.connected = true) :
    (SerialHub.send payload hub [t]).2 = none ∧
      (SerialHub.send payload hub [t]).1.queueLen t = hub.queueLen t + 1 ∧
      (SerialHub.send payload hub [t]).1.ports t =
        some { p with queue := p.queue ++ [payload ++ p.line_ending.as_bytes] } := by
  rw [send_one_live payload hub t p hp hc]
  refine ⟨rfl, ?_, ?_⟩
  · unfold SerialHub.queueLen
    rw [enqueue_ports, if_pos rfl, hp]
    simp
  · rw [enqueue_ports, if_pos rfl, hp]
    rfl

/-- C4 witness: the amended theorem applied to the 32-deep queue of
`hub32`: the queue grows to 33. -/
theorem c4_send_unbounded_witness :
    hub32.ports "B" =
        some { queue := List.replicate 32 [0], line_ending := .LF,
               connected := true } ∧
      (SerialHub.send [66] hub32 ["B"]).1.queueLen "B" =
        hub32.queueLen "B" + 1 :=
  ⟨by decide,
    (c4_send_unbounded hub32 "B"
      { queue := List.replicate 32 [0], line_ending := .LF,
        connected := true } [66] (by decide) rfl).2.1⟩

/-! ## Claim C5: send fan-out semantics -/

/-- C5: for targets that are all registered (with live writer threads),
`send` reports no error and appends to each port exactly one copy of
`payload ++ line_ending` per occurrence of its name in the ordered target
list; the first unknown name aborts the loop with `PortNotFound`, and the
ports processed before it keep their newly enqueued buffers. -/
theorem c5_send_exact :
    (∀ (hub : SerialHub) (targets : List String) (payload : List Nat),
        (∀ t ∈ targets, hub.isLive t = true) →
        (SerialHub.send payload hub targets).2 = none ∧
        ∀ n, (SerialHub.send payload hub targets).1.ports n =
          (hub.ports n).map fun p =>
            { p with queue :=
                p.queue ++ List.replicate (targets.count n) (payload ++ p.line_ending.as_bytes) }) ∧
      (∀ (hub : SerialHub) (pre : List String) (bad : String)
          (rest : List String) (payload : List Nat),
        (∀ t ∈ pre, hub.isLive t = true) → hub.ports bad = none →
        SerialHub.send payload hub (pre ++ bad :: rest) =
          ((SerialHub.send payload hub pre).1,
            some (.PortNotFound bad))) :=
  ⟨fun hub targets payload h => send_all_live payload targets hub h,
    fun hub pre bad rest payload h1 h2 =>
      send_first_missing payload pre hub bad rest h1 h2⟩


/-- C5 witness: both halves of the theorem applied to `hubW` with the
ordered target list `[A, B, A]` and with the unknown target `C`. -/
theorem c5_send_exact_witness :
    (∀ t ∈ ["A", "B", "A"], hubW.isLive t = true) ∧
      (SerialHub.send [111, 110] hubW ["A", "B", "A"]).1.ports "A" =
        (hubW.ports "A").map (fun p =>
          { p with queue :=
              p.queue ++ List.replicate ((["A", "B", "A"].count "A")) ([111, 110] ++ p.line_ending.as_bytes) }) ∧
      hubW.ports "C" = none ∧
      SerialHub.send [1] hubW (["A"] ++ "C" :: ["B"]) =
        ((SerialHub.send [1] hubW ["A"]).1,
          some (.PortNotFound "C")) :=
  ⟨by decide,
    (c5_send_exact.1 hubW ["A", "B", "A"] [111, 110] (by decide)).2 "A",
    by decide,
    c5_send_exact.2 hubW ["A"] "C" ["B"] [1] (by decide) (by decide)⟩

/-! ## Claim C6: search semantics -/


/-- C6 counterexample: for the empty query the claimed match set
`{i | lowercase(line_i) contains lowercase(q)}` is `{0}` (the empty
string is a substring of every line), but the committed search records no
matches — the code returns early on an empty query. -/
theorem c6_counterexample :
    s6.search_query = [] ∧
      toLowerS s6.search_query <:+: toLowerS (s6.lines.getD 0 []) ∧
      0 < s6.lines.length ∧
      (s6.execute_search 10).search_matches = [] := by
  refine ⟨rfl, by decide, by decide, by decide⟩

theorem execute_search_fields (d : Display) (h : Nat)
    (hq : d.search_query ≠ []) :
    (d.execute_search h).search_matches =
        searchLoop (toLowerS d.search_query) 0 d.lines ∧
      (d.execute_search h).search_match_idx = 0 ∧
      ∀ m ms, searchLoop (toLowerS d.search_query) 0 d.lines = m :: ms →
        (d.execute_search h).cursor = m := by
  simp only [Display.execute_search]
  rw [if_neg hq]
  cases hm : searchLoop (toLowerS d.search_query) 0 d.lines with
  | nil =>
    refine ⟨rfl, rfl, ?_⟩
    intro m ms hcontra
    cases hcontra
  | cons m rest =>
    refine ⟨?_, ?_, ?_⟩
    · rw [adjust_scroll_matches]
    · rw [adjust_scroll_idx]
    · intro m' ms' h'
      injection h' with h1 _
      rw [adjust_scroll_cursor]
      exact h1

/-- C6 (amended): committing a NON-empty query records exactly the
indices of the lines whose lowercased text contains the lowercased query,
in strictly ascending order, resets the match cursor to 0, and jumps the
buffer cursor to the first match when one exists.  (For the empty query
the code instead clears the match list and returns early, as the
counterexample shows.) -/
theorem c6_execute_search_exact (d : Display) (h : Nat)
    (hq : d.search_query ≠ []) :
    (∀ j, j ∈ (d.execute_search h).search_matches ↔
        j < d.lines.length ∧
          toLowerS d.search_query <:+: toLowerS (d.lines.getD j [])) ∧
      List.Pairwise (· < ·) (d.execute_search h).search_matches ∧
      (d.execute_search h).search_match_idx = 0 ∧
      ∀ m ms, (d.execute_search h).search_matches = m :: ms →
        (d.execute_search h).cursor = m := by
  obtain ⟨hmm, hidx, hcur⟩ := execute_search_fields d h hq
  refine ⟨?_, ?_, hidx, ?_⟩
  · intro j
    rw [hmm]
    simpa using searchLoop_mem (toLowerS d.search_query) d.lines 0 j
  · rw [hmm]
    exact searchLoop_sorted (toLowerS d.search_query) d.lines 0
  · intro m ms hms
    rw [hmm] at hms
    exact hcur m ms hms


/-- C6 witness: the amended theorem applied to `dW6` (`aT` matches the
lines `cat` and `CATS` case-insensitively). -/
theorem c6_execute_search_exact_witness :
    dW6.search_query ≠ [] ∧
      (dW6.execute_search 5).search_match_idx = 0 ∧
      List.Pairwise (· < ·) (dW6.execute_search 5).search_matches ∧
      (0 ∈ (dW6.execute_search 5).search_matches ↔
        0 < dW6.lines.length ∧
          toLowerS dW6.search_query <:+: toLowerS (dW6.lines.getD 0 [])) :=
  ⟨by decide,
    (c6_execute_search_exact dW6 5 (by decide)).2.2.1,
    (c6_execute_search_exact dW6 5 (by decide)).2.1,
    (c6_execute_search_exact dW6 5 (by decide)).1 0⟩

/-! ## Claim C7: yank outcome -/


/-- C7 counterexample: when the clipboard text write (`set_text?`) fails,
the `?` operator returns before `selection_start = None` runs, so the
anchor survives the yank attempt — clearing visual mode is NOT
unconditional. -/
theorem c7_counterexample :
    d7.selection_start = some 2 ∧
      (d7.yank (.ok ()) (.error "denied")).1.selection_start = some 2 ∧
      (d7.yank (.ok ()) (.error "denied")).1.selection_start ≠ none := by
  decide

/-- C7 (amended): on success the yank clears the selection anchor, caches
the clipboard handle and the handler notifies `Yanked <n> line(s)`.  On
failure the anchor always survives (visual mode is not exited) and the
handler notifies `Yank failed: <reason>`; specifically, a
`Clipboard::new()` failure (possible only when no handle is cached yet)
leaves the state fully unchanged, while a `set_text` failure leaves
everything unchanged except that the clipboard cache is — possibly by
this very call — populated. -/
theorem c7_yank_outcome (d : Display) (e : String) (h : Nat)
    (hm : d.search_mode = false) (hg : d.pending_g = false) :
    (d.yank (.ok ()) (.ok ())).1.selection_start = none ∧
      (d.yank (.ok ()) (.ok ())).1.clipboard = true ∧
      (d.yank (.ok ()) (.ok ())).2 = .ok d.num_yank_lines ∧
      (d.handle_key ⟨.plain, .char 'y'⟩ h (.ok ()) (.ok ())).2 =
        some (.notify ("Yanked " ++ toString d.num_yank_lines ++ " line(s)")) ∧
      (d.handle_key ⟨.plain, .char 'y'⟩ h (.ok ()) (.ok ())).1.selection_start =
        none ∧
      (∀ cn, (d.yank cn (.error e)).1.selection_start = d.selection_start) ∧
      (d.clipboard = false → ∀ cs,
        d.yank (.error e) cs = (d, .error e) ∧
        d.handle_key ⟨.plain, .char 'y'⟩ h (.error e) cs =
          (d, some (.notify ("Yank failed: " ++ e)))) ∧
      (∀ cn, d.clipboard = true ∨ cn = .ok () →
        (d.yank cn (.error e)).2 = .error e ∧
        (d.yank cn (.error e)).1.clipboard = true ∧
        (d.yank cn (.error e)).1.lines = d.lines ∧
        (d.yank cn (.error e)).1.cursor = d.cursor ∧
        (d.yank cn (.error e)).1.view_start = d.view_start ∧
        (d.handle_key ⟨.plain, .char 'y'⟩ h cn (.error e)).2 =
          some (.notify ("Yank failed: " ++ e))) := by
  have hkey : ∀ cn cs, Display.handle_key d ⟨.plain, .char 'y'⟩ h cn cs =
      d.yank_action cn cs := by
    intro cn cs
    unfold Display.handle_key
    rw [if_neg (by simp [hm]), if_neg (by simp [hg])]
    unfold Display.handle_key_tail
    rw [if_neg (by decide), if_neg (by decide), if_neg (by decide),
      if_neg (by decide), if_neg (by decide), if_neg (by decide),
      if_neg (by decide), if_neg (by decide), if_pos (by decide)]
  have hok : d.yank (.ok ()) (.ok ()) =
      (if d.clipboard then { d with selection_start := none }
       else { d with selection_start := none, clipboard := true },
        .ok d.num_yank_lines) := by
    unfold Display.yank Display.num_yank_lines
    by_cases hcb : d.clipboard = true
    · rw [if_pos hcb, if_pos hcb]
    · rw [if_neg hcb, if_neg hcb]
      rfl
  have hnewfail : d.clipboard = false → ∀ cs,
      d.yank (.error e) cs = (d, .error e) := by
    intro hcb cs
    unfold Display.yank
    rw [hcb]
    rfl
  have hsetfail : ∀ cn, d.clipboard = true ∨ cn = .ok () →
      d.yank cn (.error e) =
        (if d.clipboard then d else { d with clipboard := true },
          .error e) := by
    intro cn hor
    unfold Display.yank
    rcases hor with hcb | rfl
    · rw [if_pos hcb, if_pos hcb]
    · by_cases hcb : d.clipboard = true
      · rw [if_pos hcb, if_pos hcb]
      · rw [if_neg hcb, if_neg hcb]
        rfl
  refine ⟨?_, ?_, ?_, ?_, ?_, ?_, ?_, ?_⟩
  · rw [hok]
    split_ifs <;> rfl
  · rw [hok]
    split_ifs with hcb
    · exact hcb
    · rfl
  · rw [hok]
  · rw [hkey]
    unfold Display.yank_action
    rw [hok]
  · rw [hkey]
    unfold Display.yank_action
    rw [hok]
    split_ifs <;> rfl
  · intro cn
    unfold Display.yank
    cases cn <;> split_ifs <;> rfl
  · intro hcb cs
    refine ⟨hnewfail hcb cs, ?_⟩
    rw [hkey]
    unfold Display.yank_action
    rw [hnewfail hcb cs]
  · intro cn hor
    have hy := hsetfail cn hor
    refine ⟨?_, ?_, ?_, ?_, ?_, ?_⟩
    · rw [hy]
    · rw [hy]
      split_ifs with hcb
      · exact hcb
      · rfl
    · rw [hy]
      split_ifs <;> rfl
    · rw [hy]
      split_ifs <;> rfl
    · rw [hy]
      split_ifs <;> rfl
    · rw [hkey]
      unfold Display.yank_action
      rw [hy]

/-- C7 witness: the theorem applied to the visual-mode state `d7`
(anchor 2, no cached clipboard), for a failing `set_text` and for full
success. -/
theorem c7_yank_outcome_witness :
    d7.search_mode = false ∧ d7.pending_g = false ∧
      (d7.handle_key ⟨.plain, .char 'y'⟩ 5 (.ok ()) (.error "nope")).2 =
        some (.notify ("Yank failed: " ++ "nope")) ∧
      (d7.yank (.ok ()) (.error "nope")).1.selection_start =
        d7.selection_start ∧
      (d7.yank (.ok ()) (.ok ())).1.selection_start = none :=
  ⟨rfl, rfl,
    ((c7_yank_outcome d7 "nope" 5 rfl rfl).2.2.2.2.2.2.2 (.ok ())
      (Or.inr rfl)).2.2.2.2.2,
    (c7_yank_outcome d7 "nope" 5 rfl rfl).2.2.2.2.2.1 (.ok ()),
    (c7_yank_outcome d7 "nope" 5 rfl rfl).1⟩

/-! ## Claim C8: Esc in search mode -/

/-- C8: in every reachable state, pressing Esc while in search mode exits
search mode without mutating the match list, the match cursor, the buffer
cursor or the viewport, and produces no action.  (In every reachable
search-mode state the match list is already empty — `start_search`
cleared it — so `cancel_search`'s clear leaves it unchanged.) -/
theorem c8_esc_cancels_without_mutation (d : Display) (m : KeyMods)
    (h : Nat) (cn cs : Except String Unit) (hr : DReach d)
    (hs : d.search_mode = true) :
    (d.handle_key ⟨m, .esc⟩ h cn cs).1.search_matches = d.search_matches ∧
      (d.handle_key ⟨m, .esc⟩ h cn cs).1.search_match_idx =
        d.search_match_idx ∧
      (d.handle_key ⟨m, .esc⟩ h cn cs).1.cursor = d.cursor ∧
      (d.handle_key ⟨m, .esc⟩ h cn cs).1.view_start = d.view_start ∧
      (d.handle_key ⟨m, .esc⟩ h cn cs).1.search_mode = false ∧
      (d.handle_key ⟨m, .esc⟩ h cn cs).2 = none := by
  have hempty : d.search_matches = [] := dreach_sminv hr hs
  unfold Display.handle_key
  rw [if_pos hs]
  dsimp only
  unfold Display.cancel_search
  exact ⟨hempty.symm, rfl, rfl, rfl, rfl, rfl⟩


/-- C8 witness: the theorem applied to the concrete reachable state
`dW8`. -/
theorem c8_esc_cancels_without_mutation_witness :
    dW8.search_mode = true ∧
      (dW8.handle_key ⟨.plain, .esc⟩ 5 (.ok ()) (.ok ())).1.cursor =
        dW8.cursor ∧
      (dW8.handle_key ⟨.plain, .esc⟩ 5 (.ok ()) (.ok ())).1.search_mode =
        false :=
  ⟨by decide,
    (c8_esc_cancels_without_mutation dW8 .plain 5 (.ok ()) (.ok ())
      (DReach.step DOp.startSearch
        (DReach.step (DOp.push ['a']) DReach.base)) (by decide)).2.2.1,
    (c8_esc_cancels_without_mutation dW8 .plain 5 (.ok ()) (.ok ())
      (DReach.step DOp.startSearch
        (DReach.step (DOp.push ['a']) DReach.base)) (by decide)).2.2.2.2.1⟩

/-! ## Claim C9: color parsing -/

/-- C9 counterexample: `grey` is outside the claim's closed name set yet
parses successfully (to gray) instead of yielding an error. -/
theorem c9_counterexample :
    colorFromStr ['g', 'r', 'e', 'y'] = .ok .gray ∧
      colorFromStr ['g', 'r', 'e', 'y'] ≠ .err := by
  decide

/-- C9 (amended): on ASCII input the parser is total (returns a color or
an error, never panicking); a `#`-string whose byte length is not 7 is an
error; a non-`#` string succeeds exactly when its lowercased text is one
of the ELEVEN accepted names (the claim's ten plus `grey`).  On non-ASCII
input the byte slicing can panic (`#aééb` splits a two-byte character at
byte offset 3), and the integer parser's tolerance of a leading `+` lets
`#+1+2+3` parse as an RGB color, so neither totality nor strict
`#RRGGBB` rejection holds as claimed. -/
theorem c9_color_parsing :
    (∀ cs : List Char, (∀ c ∈ cs, c.val < 128) →
        colorFromStr cs ≠ .panics) ∧
      (∀ cs : List Char, cs.head? = some '#' → utf8Len cs ≠ 7 →
        colorFromStr cs = .err) ∧
      (∀ cs : List Char, cs.head? ≠ some '#' →
        (colorFromStr cs = .err ↔ (cs.map Char.toLower) ∉ colorNames)) ∧
      colorFromStr ['#', 'a', 'é', 'é', 'b'] = .panics ∧
      colorFromStr ['#', '+', '1', '+', '2', '+', '3'] = .ok (.rgb 1 2 3) := by
  refine ⟨?_, ?_, ?_, by decide, by decide⟩
  · intro cs hascii
    unfold colorFromStr
    split_ifs
    · exact hexColor_no_panic cs hascii
    · exact namedColor_ne_panics _
  · intro cs hh hlen
    unfold colorFromStr
    rw [if_pos hh]
    unfold hexColor
    rw [if_pos hlen]
  · intro cs hh
    unfold colorFromStr
    rw [if_neg hh]
    exact namedColor_err_iff _

/-- C9 witness: the totality conjunct applied to the ASCII string
`grey`, and the name characterization applied to `tael` (not a color
name). -/
theorem c9_color_parsing_witness :
    (∀ c ∈ ['g', 'r', 'e', 'y'], c.val < 128) ∧
      colorFromStr ['g', 'r', 'e', 'y'] ≠ .panics ∧
      (colorFromStr ['t', 'a', 'e', 'l'] = .err ↔
        (['t', 'a', 'e', 'l'].map Char.toLower) ∉ colorNames) :=
  ⟨by decide,
    c9_color_parsing.1 ['g', 'r', 'e', 'y'] (by decide),
    c9_color_parsing.2.2.1 ['t', 'a', 'e', 'l'] (by decide)⟩

/-! ## Claim C10: match index stays in range -/

/-- C10: if the match index is in range whenever matches exist, then
after every public display operation it still is, and the rendered title
index `search_match_idx + 1` lies in `[1, matches.len()]` whenever the
title shows a match count. -/
theorem c10_match_idx_in_range (op : DOp) (d : Display) (hi : Inv10 d) :
    Inv10 (op.apply d) ∧
      ((op.apply d).search_matches ≠ [] →
        1 ≤ (op.apply d).search_match_idx + 1 ∧
          (op.apply d).search_match_idx + 1 ≤
            (op.apply d).search_matches.length) := by
  have h1 := inv10_dop op d hi
  refine ⟨h1, fun hne => ⟨by omega, ?_⟩⟩
  have := h1 hne
  omega

/-- C10 witness: a push on the fresh display. -/
theorem c10_match_idx_in_range_witness :
    Inv10 Display.new ∧ Inv10 ((DOp.push ['a']).apply Display.new) :=
  ⟨fun hne => absurd rfl hne,
    (c10_match_idx_in_range (DOp.push ['a']) Display.new
      (fun hne => absurd rfl hne)).1⟩
